import Mathlib

/-! Verification of the `erc20` ink! contract (`src/erc20/lib.rs`)

Shallow embedding of the fungible-token ledger. `Balance` is `u128`
in the source; we model it as `Nat` with explicit wrapping modulo
`2 ^ 128` at every arithmetic site, matching the unchecked `+` / `-`
of the Rust source. `StorageHashMap` is modelled as an association
list with replace-on-insert semantics; lookups of absent keys default
to `0` exactly where the source calls `unwrap_or(&0)`.

Each public message becomes a pure function
`state → args → (result, state', emitted events)`; an early `return
Err(..)` in the source corresponds to returning the unchanged input
state together with the error.
-/

namespace Erc20Spec

/-- Opaque 32-byte account identity; only equality is used. -/
abbrev AccountId := Nat

/-- `Balance` (`u128`) values; wrapping is applied explicitly. -/
abbrev Balance := Nat

/-- `2 ^ 128`, the modulus of `u128` arithmetic. -/
def U128MOD : Nat := 2 ^ 128

/-- Wrapping `u128` addition (release-mode Rust `+` on `u128`). -/
def wadd (a b : Nat) : Nat := (a + b) % U128MOD

/-- Wrapping `u128` subtraction (release-mode Rust `-` on `u128`):
for `a b < 2 ^ 128` this is two's-complement wrapping subtraction. -/
def wsub (a b : Nat) : Nat := (a + U128MOD - b) % U128MOD

/-- The contract's error enum (`Error` in the source). -/
inductive Error where
  | InsufficientBalance
  | InsufficientAllowance
  | OnlyForCreater
deriving DecidableEq, Repr

/-- Events emitted by the contract (`Transfer`, `Approval`). -/
inductive Event where
  | Transfer (src dst : Option AccountId) (value : Balance)
  | Approval (owner spender : AccountId) (value : Balance)
deriving DecidableEq, Repr

deriving instance DecidableEq for Except

/-- Association-list model of `ink_storage` `HashMap`: lookup. -/
def mapGet [DecidableEq α] : List (α × β) → α → Option β
  | [], _ => none
  | (k', v') :: rest, k => if k' = k then some v' else mapGet rest k

/-- Association-list model of `ink_storage` `HashMap`: insert replaces
the value under an existing key, else appends a fresh entry. -/
def mapInsert [DecidableEq α] : List (α × β) → α → β → List (α × β)
  | [], k, v => [(k, v)]
  | (k', v') :: rest, k, v =>
      if k' = k then (k, v) :: rest else (k', v') :: mapInsert rest k v

/-- Erase every entry under a key (spec-side helper, used only to state
that an explicit `0` entry is indistinguishable from an absent one). -/
def mapRemove [DecidableEq α] : List (α × β) → α → List (α × β)
  | [], _ => []
  | (k', v') :: rest, k =>
      if k' = k then mapRemove rest k else (k', v') :: mapRemove rest k

/-- Contract storage (`struct Erc20` in the source). -/
structure Erc20 where
  creater : AccountId
  name : List Nat
  symbol : List Nat
  total_supply : Balance
  balances : List (AccountId × Balance)
  allowances : List ((AccountId × AccountId) × Balance)
deriving DecidableEq, Repr

/-- Constructor `new(name, symbol, total_supply)`: all supply is
credited to the deploying caller; emits `Transfer(None, caller, ts)`. -/
def new (caller : AccountId) (nm sym : List Nat) (ts : Balance) :
    Erc20 × List Event :=
  ({ creater := caller
     name := nm
     symbol := sym
     total_supply := ts
     balances := mapInsert [] caller ts
     allowances := [] },
   [Event.Transfer none (some caller) ts])

/-- `balance_of(of)`: absent entries read as `0` (`unwrap_or(&0)`). -/
def balance_of (s : Erc20) (of : AccountId) : Balance :=
  (mapGet s.balances of).getD 0

/-- `allowance(owner, spender)`: absent entries read as `0`. -/
def allowance (s : Erc20) (owner spender : AccountId) : Balance :=
  (mapGet s.allowances (owner, spender)).getD 0

/-- The credit half of the internal primitive: the second `if let` of
`transfer_from_to` (credit `dst` when present, creating the entry). -/
def creditStep (s : Erc20) (dst : Option AccountId) (value : Balance) : Erc20 :=
  match dst with
  | some to_account =>
      { s with balances :=
          mapInsert s.balances to_account (wadd (balance_of s to_account) value) }
  | none => s

/-- Internal primitive `transfer_from_to(from, to, value)`: debit `src`
when present (failing with `InsufficientBalance` if its balance is below
`value`), credit `dst` when present, emit one `Transfer(src, dst, value)`. -/
def transfer_from_to (s : Erc20) (src dst : Option AccountId) (value : Balance) :
    Except Error Unit × Erc20 × List Event :=
  match src with
  | some from_account =>
      if balance_of s from_account < value then
        (Except.error Error.InsufficientBalance, s, [])
      else
        (Except.ok (),
         creditStep
           { s with balances := mapInsert s.balances from_account (wsub (balance_of s from_account) value) }
           dst value,
         [Event.Transfer src dst value])
  | none =>
      (Except.ok (), creditStep s dst value, [Event.Transfer src dst value])

/-- Message `transfer(to, value)` invoked by `caller`. -/
def transfer (s : Erc20) (caller dest : AccountId) (value : Balance) :
    Except Error Unit × Erc20 × List Event :=
  transfer_from_to s (some caller) (some dest) value

/-- Message `approve(spender, value)` invoked by `caller`: overwrites
the `(caller, spender)` allowance entry and emits `Approval`. -/
def approve (s : Erc20) (caller spender : AccountId) (value : Balance) :
    Except Error Unit × Erc20 × List Event :=
  (Except.ok (),
   { s with allowances := mapInsert s.allowances (caller, spender) value },
   [Event.Approval caller spender value])

/-- Message `transfer_from(from, to, value)` invoked by `caller`.
Note: on success the source writes the debited allowance under the key
`(from, to)` — exactly as `self.allowances.insert((from, to), allowance - value)`
does at line 162 — not under `(from, caller)`. -/
def transfer_from (s : Erc20) (caller src dst : AccountId) (value : Balance) :
    Except Error Unit × Erc20 × List Event :=
  if allowance s src caller < value then
    (Except.error Error.InsufficientAllowance, s, [])
  else
    match transfer_from_to s (some src) (some dst) value with
    | (Except.error e, s', evs) => (Except.error e, s', evs)
    | (Except.ok _, s', evs) =>
        (Except.ok (),
         { s' with allowances := mapInsert s'.allowances (src, dst) (wsub (allowance s src caller) value) },
         evs)

/-- Message `issue(amount)` invoked by `caller`: creator-only mint. -/
def issue (s : Erc20) (caller : AccountId) (amount : Balance) :
    Except Error Unit × Erc20 × List Event :=
  if caller ≠ s.creater then
    (Except.error Error.OnlyForCreater, s, [])
  else
    match transfer_from_to
        { s with total_supply := wadd s.total_supply amount }
        none (some caller) amount with
    | (Except.error e, s', evs) => (Except.error e, s', evs)
    | (Except.ok _, s', evs) => (Except.ok (), s', evs)

/-- Message `burn(amount)` invoked by `caller`: burn from own balance,
then decrement `total_supply`. -/
def burn (s : Erc20) (caller : AccountId) (amount : Balance) :
    Except Error Unit × Erc20 × List Event :=
  match transfer_from_to s (some caller) none amount with
  | (Except.error e, s', evs) => (Except.error e, s', evs)
  | (Except.ok _, s', evs) =>
      (Except.ok (), { s' with total_supply := wsub s'.total_supply amount }, evs)

/-- Sum of all stored balance entries (for the supply invariant). -/
def sumBalances (s : Erc20) : Nat :=
  (s.balances.map Prod.snd).sum

/-- States reachable from a deployment through the public messages,
with every `Balance`-typed argument a genuine `u128` value. -/
inductive Reachable : Erc20 → Prop where
  | init (caller : AccountId) (nm sym : List Nat) (ts : Balance)
      (h : ts < U128MOD) : Reachable (new caller nm sym ts).1
  | step_transfer {s : Erc20} (caller dest : AccountId) (v : Balance)
      (hv : v < U128MOD) (hs : Reachable s) :
      Reachable (transfer s caller dest v).2.1
  | step_approve {s : Erc20} (caller spender : AccountId) (v : Balance)
      (hv : v < U128MOD) (hs : Reachable s) :
      Reachable (approve s caller spender v).2.1
  | step_transfer_from {s : Erc20} (caller src dst : AccountId) (v : Balance)
      (hv : v < U128MOD) (hs : Reachable s) :
      Reachable (transfer_from s caller src dst v).2.1
  | step_issue {s : Erc20} (caller : AccountId) (v : Balance)
      (hv : v < U128MOD) (hs : Reachable s) :
      Reachable (issue s caller v).2.1
  | step_burn {s : Erc20} (caller : AccountId) (v : Balance)
      (hv : v < U128MOD) (hs : Reachable s) :
      Reachable (burn s caller v).2.1

/-! ## Helper lemmas about the map model and wrapping arithmetic -/

theorem mapGet_insert [DecidableEq α] (m : List (α × β)) (k k' : α) (v : β) :
    mapGet (mapInsert m k v) k' = if k' = k then some v else mapGet m k' := by
  induction m with
  | nil => simp [mapInsert, mapGet, eq_comm]
  | cons p rest ih =>
      obtain ⟨a, b⟩ := p
      by_cases hak : a = k
      · subst hak
        by_cases hk : a = k'
        · subst hk; simp [mapInsert, mapGet]
        · have hk' : ¬k' = a := fun h => hk h.symm
          simp [mapInsert, mapGet, hk, hk']
      · by_cases hk : a = k'
        · subst hk
          have hk' : ¬a = k := hak
          simp [mapInsert, mapGet, hak, fun h : a = k => hak h]
        · simp [mapInsert, mapGet, hak, hk, ih]

theorem mapGet_remove [DecidableEq α] (m : List (α × β)) (k k' : α) :
    mapGet (mapRemove m k) k' = if k' = k then none else mapGet m k' := by
  induction m with
  | nil => simp [mapRemove, mapGet]
  | cons p rest ih =>
      obtain ⟨a, b⟩ := p
      by_cases hak : a = k
      · subst hak
        by_cases hk : a = k'
        · subst hk; simp [mapRemove, mapGet, ih]
        · have hk' : ¬k' = a := fun h => hk h.symm
          simp [mapRemove, mapGet, hk, ih, hk']
      · by_cases hk : a = k'
        · subst hk
          simp [mapRemove, mapGet, hak, fun h : a = k => hak h]
        · simp [mapRemove, mapGet, hak, hk, ih]

theorem wadd_eq {a b : Nat} (h : a + b < U128MOD) : wadd a b = a + b := by
  rw [wadd]; exact Nat.mod_eq_of_lt h

theorem wsub_eq {a b : Nat} (h1 : b ≤ a) (h2 : a < U128MOD) : wsub a b = a - b := by
  have h3 : a + U128MOD - b = U128MOD + (a - b) := by omega
  rw [wsub, h3, Nat.add_mod_left]
  exact Nat.mod_eq_of_lt (by omega)

theorem wadd_wsub_cancel {a b : Nat} (h1 : b ≤ a) (h2 : a < U128MOD) :
    wadd (wsub a b) b = a := by
  rw [wsub_eq h1 h2, wadd]
  have h3 : a - b + b = a := by omega
  rw [h3]
  exact Nat.mod_eq_of_lt h2

/-! ## Equation lemmas for the operations -/

theorem balance_of_set (s : Erc20) (bs : List (AccountId × Balance)) (y : AccountId) :
    balance_of { s with balances := bs } y = (mapGet bs y).getD 0 := rfl

theorem allowance_set (s : Erc20) (al : List ((AccountId × AccountId) × Balance))
    (o sp : AccountId) :
    allowance { s with allowances := al } o sp = (mapGet al (o, sp)).getD 0 := rfl

theorem creditStep_none (s : Erc20) (v : Balance) : creditStep s none v = s := rfl

theorem creditStep_total (s : Erc20) (dst : Option AccountId) (v : Balance) :
    (creditStep s dst v).total_supply = s.total_supply := by
  cases dst <;> rfl

theorem creditStep_allowances (s : Erc20) (dst : Option AccountId) (v : Balance) :
    (creditStep s dst v).allowances = s.allowances := by
  cases dst <;> rfl

theorem balance_of_creditStep (s : Erc20) (t y : AccountId) (v : Balance) :
    balance_of (creditStep s (some t) v) y =
      if y = t then wadd (balance_of s t) v else balance_of s y := by
  simp [creditStep, balance_of, mapGet_insert]
  split <;> rfl

theorem transfer_from_to_none (s : Erc20) (dst : Option AccountId) (v : Balance) :
    transfer_from_to s none dst v =
      (Except.ok (), creditStep s dst v, [Event.Transfer none dst v]) := rfl

theorem transfer_from_to_insufficient {s : Erc20} {a : AccountId}
    (dst : Option AccountId) {v : Balance} (h : balance_of s a < v) :
    transfer_from_to s (some a) dst v =
      (Except.error Error.InsufficientBalance, s, []) := by
  simp [transfer_from_to, h]

theorem transfer_from_to_ok {s : Erc20} {a : AccountId}
    (dst : Option AccountId) {v : Balance} (h : v ≤ balance_of s a) :
    transfer_from_to s (some a) dst v =
      (Except.ok (),
       creditStep { s with balances := mapInsert s.balances a (wsub (balance_of s a) v) } dst v,
       [Event.Transfer (some a) dst v]) := by
  simp [transfer_from_to, Nat.not_lt.mpr h]

example : balance_of (new 7 [] [] 1000).1 7 = 1000 := by decide

example : (transfer (new 7 [] [] 1000).1 7 8 10).1 = Except.ok () := by decide

example :
    balance_of (transfer (new 7 [] [] 1000).1 7 8 10).2.1 8 = 10 := by decide

/-! ## Concrete states used in witnesses and counterexamples -/

/-- Largest `u128` value, `2 ^ 128 - 1`. -/
def maxU128 : Nat := U128MOD - 1

/-- Deployment by account `0` with the full `u128` range as supply. -/
def s0bad : Erc20 := (new 0 [] [] maxU128).1

/-- Account `0` then moves its entire balance to account `1`. -/
def s1bad : Erc20 := (transfer s0bad 0 1 maxU128).2.1

/-- The creator then mints one more token: `total_supply` wraps to `0`
while the balances sum to `2 ^ 128`. -/
def sBad : Erc20 := (issue s1bad 0 1).2.1

theorem reachable_sBad : Reachable sBad :=
  Reachable.step_issue 0 1 (by decide)
    (Reachable.step_transfer 0 1 maxU128 (by decide)
      (Reachable.init 0 [] [] maxU128 (by decide)))

/-- A small concrete ledger for witnesses: creator `0` holds 60, account
`1` holds 40, account `3` has an explicit zero balance entry, `0` has
approved `1` for 10, and `(2, 2)` has an explicit zero allowance. -/
def sW : Erc20 :=
  { creater := 0
    name := []
    symbol := []
    total_supply := 100
    balances := [(0, 60), (1, 40), (3, 0)]
    allowances := [((0, 1), 10), ((2, 2), 0)] }

/-- A ledger where `0` has approved `1` for 10 but holds no balance. -/
def sPoor : Erc20 :=
  { creater := 0
    name := []
    symbol := []
    total_supply := 0
    balances := []
    allowances := [((0, 1), 10)] }

/-- Deployment by alice (`0`) of 1000 tokens. -/
def s0c : Erc20 := (new 0 [] [] 1000).1

/-- Alice (`0`) approves bob (`1`) for 10. -/
def s1c : Erc20 := (approve s0c 0 1 10).2.1

/-- Bob (`1`) calls `transfer_from(alice, eve, 10)` (eve is `2`). -/
def s2c : Erc20 := (transfer_from s1c 1 0 2 10).2.1

/-! ## Claims -/

/-- C1 — refuted, the code is at fault: after `approve` grants bob 10
from alice, bob's `transfer_from(alice, eve, 10)` succeeds, but the
source debits the allowance entry keyed `(from, to) = (alice, eve)`
instead of `(from, caller) = (alice, bob)` (line 162), so
`allowance(alice, bob)` stays 10 (not the claimed `old - value = 0`) and
the immediately repeated identical call succeeds instead of failing with
`InsufficientAllowance`. -/
theorem c1_transfer_from_allowance_refuted :
    (transfer_from s1c 1 0 2 10).1 = Except.ok () ∧
    allowance s1c 0 1 = 10 ∧
    allowance s2c 0 1 = 10 ∧
    allowance s2c 0 1 ≠ allowance s1c 0 1 - 10 ∧
    (transfer_from s2c 1 0 2 10).1 = Except.ok () ∧
    (transfer_from s2c 1 0 2 10).1 ≠ Except.error Error.InsufficientAllowance := by
  decide

/-- C2 — refuted, the code is at fault: a reachable state (deploy
with supply `2 ^ 128 - 1`, transfer it all away from the creator, then
`issue(1)`) has `total_supply = 0` but balances summing to `2 ^ 128`,
because `issue` wraps `total_supply + amount` instead of rejecting the
overflow. -/
theorem c2_supply_invariant_refuted :
    ∃ s : Erc20, Reachable s ∧ sumBalances s ≠ s.total_supply :=
  ⟨sBad, reachable_sBad, by decide⟩

/-- C3 — refuted, the code is at fault: the unchecked `Amount`
arithmetic wraps modulo `2 ^ 128` and the call still succeeds with
mutated state, at each site: the `total_supply` increment of `issue`,
the credit addition of the internal primitive, and the `total_supply`
decrement of `burn`. -/
theorem c3_overflow_wraps_instead_of_rejecting :
    (issue s0bad 0 1).1 = Except.ok () ∧
    s0bad.total_supply = maxU128 ∧
    (issue s0bad 0 1).2.1.total_supply = 0 ∧
    (transfer sBad 0 1 1).1 = Except.ok () ∧
    balance_of sBad 1 = maxU128 ∧
    balance_of (transfer sBad 0 1 1).2.1 1 = 0 ∧
    (burn sBad 0 1).1 = Except.ok () ∧
    sBad.total_supply = 0 ∧
    (burn sBad 0 1).2.1.total_supply = maxU128 := by
  decide

/-- C4 — confirmed: whenever `transfer`, `transfer_from`, `issue` or
`burn` returns an error, the returned state is exactly the input state;
in particular when `transfer_from` passes its allowance check but the
internal primitive fails with `InsufficientBalance`, that error is
propagated unchanged and the allowance entry is not consumed. -/
theorem c4_errors_leave_state_unchanged (s : Erc20) (caller x y : AccountId)
    (v : Balance) (e : Error) :
    ((transfer s caller x v).1 = Except.error e → (transfer s caller x v).2.1 = s) ∧
    ((transfer_from s caller x y v).1 = Except.error e →
      (transfer_from s caller x y v).2.1 = s) ∧
    ((issue s caller v).1 = Except.error e → (issue s caller v).2.1 = s) ∧
    ((burn s caller v).1 = Except.error e → (burn s caller v).2.1 = s) ∧
    (v ≤ allowance s x caller →
      (transfer_from_to s (some x) (some y) v).1 = Except.error Error.InsufficientBalance →
      (transfer_from s caller x y v).1 = Except.error Error.InsufficientBalance ∧
      allowance (transfer_from s caller x y v).2.1 x caller = allowance s x caller) := by
  refine ⟨?_, ?_, ?_, ?_, ?_⟩
  · intro h
    by_cases hb : balance_of s caller < v
    · rw [transfer, transfer_from_to_insufficient (some x) hb]
    · rw [transfer, transfer_from_to_ok (some x) (Nat.not_lt.mp hb)] at h
      simp at h
  · intro h
    by_cases ha : allowance s x caller < v
    · simp only [transfer_from, if_pos ha]
    · by_cases hb : balance_of s x < v
      · simp only [transfer_from, if_neg ha,
          transfer_from_to_insufficient (some y) hb]
      · simp only [transfer_from, if_neg ha,
          transfer_from_to_ok (some y) (Nat.not_lt.mp hb)] at h
        simp at h
  · intro h
    by_cases hc : caller ≠ s.creater
    · simp only [issue, if_pos hc]
    · simp only [issue, if_neg hc, transfer_from_to_none] at h
      simp at h
  · intro h
    by_cases hb : balance_of s caller < v
    · simp only [burn, transfer_from_to_insufficient none hb]
    · simp only [burn, transfer_from_to_ok none (Nat.not_lt.mp hb)] at h
      simp at h
  · intro h1 h2
    have hb : balance_of s x < v := by
      by_contra hb
      rw [transfer_from_to_ok (some y) (Nat.not_lt.mp hb)] at h2
      simp at h2
    simp only [transfer_from, if_neg (Nat.not_lt.mpr h1),
      transfer_from_to_insufficient (some y) hb]
    constructor <;> trivial

/-- Witness for C4 at concrete inputs: each operation's error case hands
back the untouched state, and a balance failure inside `transfer_from`
propagates without consuming the allowance. -/
theorem c4_errors_witness :
    (transfer sW 2 0 10).2.1 = sW ∧
    (transfer_from sW 3 0 1 10).2.1 = sW ∧
    (issue sW 1 5).2.1 = sW ∧
    (burn sW 2 5).2.1 = sW ∧
    ((transfer_from sPoor 1 0 2 10).1 = Except.error Error.InsufficientBalance ∧
      allowance (transfer_from sPoor 1 0 2 10).2.1 0 1 = allowance sPoor 0 1) :=
  ⟨(c4_errors_leave_state_unchanged sW 2 0 1 10 Error.InsufficientBalance).1 (by decide),
   (c4_errors_leave_state_unchanged sW 3 0 1 10 Error.InsufficientAllowance).2.1 (by decide),
   (c4_errors_leave_state_unchanged sW 1 0 0 5 Error.OnlyForCreater).2.2.1 (by decide),
   (c4_errors_leave_state_unchanged sW 2 0 0 5 Error.InsufficientBalance).2.2.2.1 (by decide),
   (c4_errors_leave_state_unchanged sPoor 1 0 2 10 Error.InsufficientBalance).2.2.2.2
     (by decide) (by decide)⟩

/-- C5, amended: `issue(amount)` succeeds exactly when the caller is
the recorded creator, and any other caller fails with `OnlyForCreater`
leaving the state untouched; the creator's call increases `total_supply`
and the creator's balance by exactly `amount` *provided neither addition
overflows `2 ^ 128`* (the source wraps on overflow instead of rejecting,
so the exact-increase part of the original claim needs that proviso). -/
theorem c5_issue_amended (s : Erc20) (caller : AccountId) (amount : Balance) :
    ((issue s caller amount).1 = Except.ok () ↔ caller = s.creater) ∧
    (caller ≠ s.creater →
      issue s caller amount = (Except.error Error.OnlyForCreater, s, [])) ∧
    (caller = s.creater → s.total_supply + amount < U128MOD →
      balance_of s caller + amount < U128MOD →
      (issue s caller amount).2.1.total_supply = s.total_supply + amount ∧
      balance_of (issue s caller amount).2.1 caller = balance_of s caller + amount ∧
      ∀ x, x ≠ caller → balance_of (issue s caller amount).2.1 x = balance_of s x) := by
  by_cases hc : caller = s.creater
  · have hcc : ¬caller ≠ s.creater := not_not_intro hc
    refine ⟨?_, ?_, ?_⟩
    · simp only [issue, if_neg hcc, transfer_from_to_none]
      exact ⟨fun _ => hc, fun _ => trivial⟩
    · intro hne; exact absurd hne hcc
    · intro _ h1 h2
      simp only [issue, if_neg hcc, transfer_from_to_none]
      refine ⟨?_, ?_, ?_⟩
      · rw [creditStep_total]
        exact wadd_eq h1
      · rw [balance_of_creditStep, if_pos rfl]
        exact wadd_eq h2
      · intro x hx
        rw [balance_of_creditStep, if_neg hx]
        rfl
  · refine ⟨?_, ?_, ?_⟩
    · simp only [issue, if_pos hc]
      constructor
      · intro h; simp at h
      · intro h; exact absurd h hc
    · intro _
      simp only [issue, if_pos hc]
    · intro h; exact absurd h hc

/-- Counterexample to C5 as stated: at a deployed ledger holding the
maximal supply, the creator's `issue(1)` succeeds but `total_supply` and
the creator's balance wrap to `0` rather than increasing by 1. -/
theorem c5_issue_counterexample :
    0 = s0bad.creater ∧
    (issue s0bad 0 1).1 = Except.ok () ∧
    (issue s0bad 0 1).2.1.total_supply ≠ s0bad.total_supply + 1 ∧
    balance_of (issue s0bad 0 1).2.1 0 ≠ balance_of s0bad 0 + 1 := by
  decide

/-- Witness for the amended C5 at concrete inputs. -/
theorem c5_issue_witness :
    (issue sW 0 5).2.1.total_supply = sW.total_supply + 5 ∧
    balance_of (issue sW 0 5).2.1 0 = balance_of sW 0 + 5 ∧
    balance_of (issue sW 0 5).2.1 1 = balance_of sW 1 ∧
    (issue sW 1 5).1 = Except.error Error.OnlyForCreater :=
  ⟨((c5_issue_amended sW 0 5).2.2 rfl (by decide) (by decide)).1,
   ((c5_issue_amended sW 0 5).2.2 rfl (by decide) (by decide)).2.1,
   ((c5_issue_amended sW 0 5).2.2 rfl (by decide) (by decide)).2.2 1 (by decide),
   by rw [(c5_issue_amended sW 1 5).2.1 (by decide)]⟩

/-- C6, amended: for `amount ≤ total_supply` (no `total_supply`
underflow — the source wraps `total_supply - amount` without a check,
so the original claim needs this proviso), `burn(amount)` by a caller
with sufficient balance succeeds, decreases the caller's balance and
`total_supply` by exactly `amount`, leaves every other balance alone and
emits one `Transfer` with `from = caller, to = none`; a caller with
insufficient balance gets `InsufficientBalance` and an untouched state. -/
theorem c6_burn_amended (s : Erc20) (c : AccountId) (a : Balance)
    (hts : a ≤ s.total_supply) (htsU : s.total_supply < U128MOD)
    (hbU : balance_of s c < U128MOD) :
    (a ≤ balance_of s c →
      (burn s c a).1 = Except.ok () ∧
      balance_of (burn s c a).2.1 c = balance_of s c - a ∧
      (∀ x, x ≠ c → balance_of (burn s c a).2.1 x = balance_of s x) ∧
      (burn s c a).2.1.total_supply = s.total_supply - a ∧
      (burn s c a).2.2 = [Event.Transfer (some c) none a]) ∧
    (balance_of s c < a →
      burn s c a = (Except.error Error.InsufficientBalance, s, [])) := by
  constructor
  · intro hle
    simp only [burn, transfer_from_to_ok none hle, creditStep_none]
    refine ⟨trivial, ?_, ?_, ?_, trivial⟩
    · simp only [balance_of, mapGet_insert, if_pos rfl]
      exact wsub_eq hle hbU
    · intro x hx
      simp only [balance_of, mapGet_insert, if_neg hx]
    · exact wsub_eq hts htsU
  · intro hlt
    simp only [burn, transfer_from_to_insufficient none hlt]

/-- Counterexample to C6 as stated: in the reachable state `sBad`
(`total_supply` wrapped to `0`, account `0` holding 1 token), `burn(1)`
by `0` succeeds but `total_supply` jumps up to `2 ^ 128 - 1` instead of
decreasing by 1. -/
theorem c6_burn_counterexample :
    Reachable sBad ∧
    1 ≤ balance_of sBad 0 ∧
    (burn sBad 0 1).1 = Except.ok () ∧
    (burn sBad 0 1).2.1.total_supply + 1 ≠ sBad.total_supply :=
  ⟨reachable_sBad, by decide, by decide, by decide⟩

/-- Witness for the amended C6 at concrete inputs. -/
theorem c6_burn_witness :
    (burn sW 1 40).1 = Except.ok () ∧
    balance_of (burn sW 1 40).2.1 1 = 0 ∧
    (burn sW 1 40).2.1.total_supply = 60 ∧
    (burn sW 1 40).2.2 = [Event.Transfer (some 1) none 40] ∧
    burn sW 2 5 = (Except.error Error.InsufficientBalance, sW, []) := by
  have h := (c6_burn_amended sW 1 40 (by decide) (by decide) (by decide)).1 (by decide)
  have h2 := (c6_burn_amended sW 2 5 (by decide) (by decide) (by decide)).2 (by decide)
  exact ⟨h.1, h.2.1.trans (by decide), h.2.2.2.1.trans (by decide), h.2.2.2.2, h2⟩

/-- C7 — confirmed: `approve(spender, value)` always returns `Ok`,
overwrites (does not add to) the `(caller, spender)` allowance entry
whatever the prior ledger state or the caller's balance, emits exactly
one `Approval(owner = caller, spender, value)` notification, and
`approve(sp, 5)` followed by `approve(sp, 3)` leaves the allowance at 3. -/
theorem c7_approve_overwrites (s : Erc20) (c sp : AccountId) (v : Balance) :
    (approve s c sp v).1 = Except.ok () ∧
    allowance (approve s c sp v).2.1 c sp = v ∧
    (approve s c sp v).2.2 = [Event.Approval c sp v] ∧
    allowance (approve (approve s c sp 5).2.1 c sp 3).2.1 c sp = 3 := by
  refine ⟨rfl, ?_, rfl, ?_⟩ <;>
    simp [approve, allowance, mapGet_insert]

/-- C8 — confirmed: the read accessors are plain functions of the
state (the embedding gives them no error or mutation channel), an
account with no `balances` entry reads as balance `0`, a pair with no
`allowances` entry reads as allowance `0`, and a stored entry with value
`0` is indistinguishable from an erased (absent) entry to the reads. -/
theorem c8_reads_default_to_zero (s : Erc20) (a o sp : AccountId) :
    (mapGet s.balances a = none → balance_of s a = 0) ∧
    (mapGet s.allowances (o, sp) = none → allowance s o sp = 0) ∧
    (mapGet s.balances a = some 0 →
      ∀ x, balance_of { s with balances := mapRemove s.balances a } x = balance_of s x) ∧
    (mapGet s.allowances (o, sp) = some 0 →
      ∀ p q, allowance { s with allowances := mapRemove s.allowances (o, sp) } p q =
        allowance s p q) := by
  refine ⟨?_, ?_, ?_, ?_⟩
  · intro h; simp [balance_of, h]
  · intro h; simp [allowance, h]
  · intro h x
    by_cases hx : x = a
    · subst hx
      simp [balance_of, mapGet_remove, h]
    · simp [balance_of, mapGet_remove, hx]
  · intro h p q
    by_cases hpq : (p, q) = (o, sp)
    · rw [show allowance s p q = (mapGet s.allowances (p, q)).getD 0 from rfl, hpq, h]
      simp [allowance, mapGet_remove, hpq]
    · simp [allowance, mapGet_remove, hpq]

/-- Witness for C8 at concrete inputs: account `2` has no balance entry
and reads 0, pair `(1, 2)` has no allowance entry and reads 0, erasing
the explicit zero balance of account `3` and the explicit zero allowance
of `(2, 2)` changes no read. -/
theorem c8_reads_default_witness :
    balance_of sW 2 = 0 ∧
    allowance sW 1 2 = 0 ∧
    balance_of { sW with balances := mapRemove sW.balances 3 } 3 = balance_of sW 3 ∧
    allowance { sW with allowances := mapRemove sW.allowances (2, 2) } 2 2 =
      allowance sW 2 2 :=
  ⟨(c8_reads_default_to_zero sW 2 1 2).1 (by decide),
   (c8_reads_default_to_zero sW 2 1 2).2.1 (by decide),
   (c8_reads_default_to_zero sW 3 1 2).2.2.1 (by decide) 3,
   (c8_reads_default_to_zero sW 2 2 2).2.2.2 (by decide) 2 2⟩

/-- C9 — confirmed: a self-transfer `transfer(c, v)` by a caller `c`
with balance at least `v` succeeds and is the identity on every
observable balance and on `total_supply`: the credit step re-reads `c`'s
balance after the debit was stored, so it writes back exactly the
original value. -/
theorem c9_self_transfer_identity (s : Erc20) (c : AccountId) (v : Balance)
    (hv : v ≤ balance_of s c) (hb : balance_of s c < U128MOD) :
    (transfer s c c v).1 = Except.ok () ∧
    (∀ x, balance_of (transfer s c c v).2.1 x = balance_of s x) ∧
    (transfer s c c v).2.1.total_supply = s.total_supply := by
  rw [transfer, transfer_from_to_ok (some c) hv]
  refine ⟨rfl, ?_, ?_⟩
  · intro x
    rw [balance_of_creditStep]
    by_cases hx : x = c
    · subst hx
      rw [if_pos rfl]
      have hbal : balance_of
          { s with balances := mapInsert s.balances x (wsub (balance_of s x) v) } x =
          wsub (balance_of s x) v := by
        simp [balance_of, mapGet_insert]
      rw [hbal]
      exact wadd_wsub_cancel hv hb
    · rw [if_neg hx]
      simp [balance_of, mapGet_insert, hx]
  · rw [creditStep_total]

/-- Witness for C9 at a concrete input: the self-transfer of 30 by the
creator of `sW` succeeds and changes no balance and not the supply. -/
theorem c9_self_transfer_witness :
    (transfer sW 0 0 30).1 = Except.ok () ∧
    balance_of (transfer sW 0 0 30).2.1 0 = balance_of sW 0 ∧
    balance_of (transfer sW 0 0 30).2.1 1 = balance_of sW 1 ∧
    (transfer sW 0 0 30).2.1.total_supply = sW.total_supply := by
  have h := c9_self_transfer_identity sW 0 30 (by decide) (by decide)
  exact ⟨h.1, h.2.1 0, h.2.1 1, h.2.2⟩

/-- C10 — confirmed: both guarded subtractions are reached only when
they cannot underflow: if the internal primitive with a present source
returns `Ok` then `value ≤ balance_of(src)` (the `from_balance < value`
branch returned `InsufficientBalance` first), and if `transfer_from`
returns `Ok` then `value ≤ allowance(from, caller)` (the
`allowance < value` branch returned `InsufficientAllowance` first). -/
theorem c10_guarded_subtractions_no_underflow (s : Erc20)
    (caller src dst : AccountId) (v : Balance) (d : Option AccountId) :
    ((transfer_from_to s (some src) d v).1 = Except.ok () → v ≤ balance_of s src) ∧
    ((transfer_from s caller src dst v).1 = Except.ok () →
      v ≤ allowance s src caller) := by
  constructor
  · intro h
    by_cases hb : balance_of s src < v
    · rw [transfer_from_to_insufficient d hb] at h
      simp at h
    · exact Nat.not_lt.mp hb
  · intro h
    by_cases ha : allowance s src caller < v
    · simp only [transfer_from, if_pos ha] at h
      simp at h
    · exact Nat.not_lt.mp ha

/-- Witness for C10 at concrete inputs: both successful calls on `sW`
establish the corresponding bound. -/
theorem c10_guarded_subtractions_witness :
    (10 : Nat) ≤ balance_of sW 0 ∧ (10 : Nat) ≤ allowance sW 0 1 :=
  ⟨(c10_guarded_subtractions_no_underflow sW 1 0 2 10 (some 1)).1 (by decide),
   (c10_guarded_subtractions_no_underflow sW 1 0 2 10 (some 1)).2 (by decide)⟩

end Erc20Spec
